import Mathlib

/-!
Verification of the Poryscript parser (src/parser/parser.go, with the AST node
shapes as used by that file).

The Go parser is shallowly embedded as pure Lean functions over an explicit
parser state.  The lexer (an external collaborator per the spec) is modelled as
a list of tokens; past the end of the list it keeps yielding EOF tokens, which
is the contract the Go parser relies on.  Go functions that loop are given an
explicit fuel parameter: a result of `none` means the fuel ran out, so a
function whose result is `none` for every fuel amount models a Go loop that
never terminates.  Go's nil-pointer results are modelled with an inner
`Option`.
-/

namespace Poryscript

/-- Token types of the external `token` package (a collaborator of the parser;
the package itself is not under src/).  Modelled from the spec, which lists the
token kinds in its input contract: identifiers, keywords, punctuation, string
and raw-string literals, relational operators, `&&`/`||`, and end-of-input.
`EMPTY` models Go's zero value `""` of the string-typed `token.Type`, used for
fields that are never assigned. -/
inductive TokenType where
  | IDENT
  | STRING
  | RAWSTRING
  | LPAREN
  | RPAREN
  | LBRACE
  | RBRACE
  | COMMA
  | COLON
  | SCRIPT
  | RAW
  | RAWGLOBAL
  | IF
  | ELSEIF
  | ELSE
  | WHILE
  | DO
  | SWITCH
  | CASE
  | DEFAULT
  | BREAK
  | CONTINUE
  | MAPSCRIPTS
  | VAR
  | FLAG
  | TRUE
  | FALSE
  | GT
  | GTE
  | LT
  | LTE
  | EQ
  | NEQ
  | AND
  | OR
  | EOF
  | EMPTY
  deriving DecidableEq, Repr, Fintype

/-- Modelled from the spec: the string values of the external `token`
package's string-typed token types (the `token` package is not under src/).
The spec's input contract names the keywords and punctuation; the claims only
depend on `TRUE`/`FALSE` rendering as `TRUE`/`FALSE` and on none of these
strings containing digits or a `line` prefix. -/
def typeString : TokenType → String
  | .IDENT => "IDENT"
  | .STRING => "STRING"
  | .RAWSTRING => "RAWSTRING"
  | .LPAREN => "("
  | .RPAREN => ")"
  | .LBRACE => "\x7b"
  | .RBRACE => "\x7d"
  | .COMMA => ","
  | .COLON => ":"
  | .SCRIPT => "script"
  | .RAW => "raw"
  | .RAWGLOBAL => "raw_global"
  | .IF => "if"
  | .ELSEIF => "elif"
  | .ELSE => "else"
  | .WHILE => "while"
  | .DO => "do"
  | .SWITCH => "switch"
  | .CASE => "case"
  | .DEFAULT => "default"
  | .BREAK => "break"
  | .CONTINUE => "continue"
  | .MAPSCRIPTS => "mapscripts"
  | .VAR => "var"
  | .FLAG => "flag"
  | .TRUE => "TRUE"
  | .FALSE => "FALSE"
  | .GT => ">"
  | .GTE => ">="
  | .LT => "<"
  | .LTE => "<="
  | .EQ => "=="
  | .NEQ => "!="
  | .AND => "&&"
  | .OR => "||"
  | .EOF => "EOF"
  | .EMPTY => ""

/-- A lexer token: `token.Token` with fields Type, Literal, LineNumber. -/
structure Token where
  type : TokenType
  literal : String
  lineNumber : Nat
  deriving DecidableEq, Repr

/-- The EOF token the modelled lexer yields past the end of its stream. -/
def eofToken : Token := { type := .EOF, literal := "", lineNumber := 0 }

/-- ast.Identifier as used by parser.go. -/
structure Identifier where
  token : Token
  value : String
  deriving DecidableEq, Repr

mutual

/-- ast.Statement as constructed by parser.go (Script, Command, Raw, If). -/
inductive Statement where
  | script (token : Token) (name : Identifier) (body : Option BlockStatement)
  | command (token : Token) (name : Identifier) (args : List String)
  | raw (token : Token) (isGlobal : Bool) (name : Identifier) (value : String)
  | ifS (token : Token) (consequence : ConditionExpression)
      (elifConsequences : List ConditionExpression)
      (elseConsequence : Option BlockStatement)

/-- ast.BlockStatement: a token plus the statements of the block. -/
inductive BlockStatement where
  | mk (token : Token) (statements : List Statement)

/-- ast.ConditionExpression with the fields parser.go populates:
Type, Operand, Operator, ComparisonValue, Body. -/
inductive ConditionExpression where
  | mk (condType : TokenType) (operand : String) (operator : TokenType)
      (comparisonValue : String) (body : Option BlockStatement)

end

/-- The Type field of a ConditionExpression. -/
def ConditionExpression.condType : ConditionExpression → TokenType
  | .mk t _ _ _ _ => t

/-- The Operand field of a ConditionExpression. -/
def ConditionExpression.operand : ConditionExpression → String
  | .mk _ o _ _ _ => o

/-- The Operator field of a ConditionExpression. -/
def ConditionExpression.operator : ConditionExpression → TokenType
  | .mk _ _ op _ _ => op

/-- The ComparisonValue field of a ConditionExpression. -/
def ConditionExpression.comparisonValue : ConditionExpression → String
  | .mk _ _ _ v _ => v

/-- Assignment `expression.Operand = ...`. -/
def ConditionExpression.withOperand : ConditionExpression → String → ConditionExpression
  | .mk t _ op v b, o => .mk t o op v b

/-- Assignment `expression.Operator = ...`. -/
def ConditionExpression.withOperator : ConditionExpression → TokenType → ConditionExpression
  | .mk t o _ v b, op => .mk t o op v b

/-- Assignment `expression.ComparisonValue = ...`. -/
def ConditionExpression.withComparisonValue : ConditionExpression → String → ConditionExpression
  | .mk t o op _ b, v => .mk t o op v b

/-- Assignment `expression.Body = ...`. -/
def ConditionExpression.withBody : ConditionExpression → Option BlockStatement → ConditionExpression
  | .mk t o op v _, b => .mk t o op v b

/-- ast.Text (Name, Value, StringType, IsGlobal); parser.go only sets Name and
Value, leaving the other fields at their zero values. -/
structure Text where
  name : String
  value : String
  stringType : String := ""
  isGlobal : Bool := false
  deriving DecidableEq, Repr

/-- ast.Program: top-level statements plus the text pool. -/
structure Program where
  topLevelStatements : List Statement
  texts : List Text

/-- Parser state: current and peek tokens, the not-yet-consumed remainder of
the lexer's stream, the error list, and the implicit-text list. -/
structure Parser where
  curToken : Token
  peekToken : Token
  rest : List Token
  errors : List String
  implicitTexts : List String

/-- One step of the lexer contract: pop the next token, yielding EOF tokens
forever once the stream is exhausted. -/
def lexNext : List Token → Token × List Token
  | [] => (eofToken, [])
  | t :: ts => (t, ts)

/-- Parser.nextToken: shift peek into cur and pull one token from the lexer. -/
def Parser.nextToken (p : Parser) : Parser :=
  let n := lexNext p.rest
  { p with curToken := p.peekToken, peekToken := n.1, rest := n.2 }

/-- parser.New: construct a parser and read two tokens so that curToken and
peekToken are both set. -/
def Parser.new (tokens : List Token) : Parser :=
  let n1 := lexNext tokens
  let n2 := lexNext n1.2
  { curToken := n1.1, peekToken := n2.1, rest := n2.2, errors := [], implicitTexts := [] }

/-- Parser.peekTokenIs. -/
def Parser.peekTokenIs (p : Parser) (expectedType : TokenType) : Bool :=
  p.peekToken.type = expectedType

/-- The message appended by Parser.peekError: a function of the expected and
actual token types only. -/
def peekErrorMsg (expectedType gotType : TokenType) : String :=
  let e := typeString expectedType
  let g := typeString gotType
  s!"expected next token to be type {e}, got {g} instead"

/-- Parser.peekError: append the expectation-mismatch message. -/
def Parser.peekError (p : Parser) (expectedType : TokenType) : Parser :=
  { p with errors := p.errors ++ [peekErrorMsg expectedType p.peekToken.type] }

/-- Parser.expectPeek: advance when the peek token has the expected type,
otherwise record a peekError. -/
def Parser.expectPeek (p : Parser) (expectedType : TokenType) : Bool × Parser :=
  if p.peekTokenIs expectedType then (true, p.nextToken)
  else (false, p.peekError expectedType)

/-- getImplicitTextLabel. -/
def getImplicitTextLabel (i : Nat) : String :=
  s!"Text_{i}"

/-- The argument-list loop of parseCommandStatement (parser.go lines 200-233):
runs until a closing parenthesis at depth 0, splitting arguments at commas,
tracking parenthesis depth, and replacing string literals by implicit text
labels.  On EOF it records a missing-parenthesis error naming the command
token's line. -/
def commandArgsLoop : Nat → Token → Identifier → List String → List String → Int → Parser →
    Option (Option Statement × Parser)
  | 0, _, _, _, _, _, _ => none
  | fuel+1, tok, name, args, argParts, numOpenParens, p =>
    if p.curToken.type = TokenType.RPAREN ∧ numOpenParens = 0 then
      let args := if argParts.length > 0 then args ++ [String.intercalate " " argParts] else args
      some (some (Statement.command tok name args), p)
    else if p.curToken.type = TokenType.EOF then
      let n := tok.lineNumber
      let cname := name.token.literal
      some (none, { p with
        errors := p.errors ++ [s!"line {n}: missing closing parenthesis for command '{cname}'"] })
    else if p.curToken.type = TokenType.COMMA then
      commandArgsLoop fuel tok name (args ++ [String.intercalate " " argParts]) [] numOpenParens
        p.nextToken
    else if p.curToken.type = TokenType.LPAREN then
      commandArgsLoop fuel tok name args (argParts ++ [p.curToken.literal]) (numOpenParens + 1)
        p.nextToken
    else if p.curToken.type = TokenType.RPAREN then
      commandArgsLoop fuel tok name args (argParts ++ [p.curToken.literal]) (numOpenParens - 1)
        p.nextToken
    else if p.curToken.type = TokenType.STRING then
      let lbl := getImplicitTextLabel p.implicitTexts.length
      commandArgsLoop fuel tok name args (argParts ++ [lbl]) numOpenParens
        { p.nextToken with implicitTexts := p.implicitTexts ++ [p.curToken.literal] }
    else
      commandArgsLoop fuel tok name args (argParts ++ [p.curToken.literal]) numOpenParens
        p.nextToken

/-- parseCommandStatement: a command is its name identifier, optionally
followed by a parenthesized argument list. -/
def parseCommandStatement : Nat → Parser → Option (Option Statement × Parser)
  | 0, _ => none
  | fuel+1, p =>
    let tok := p.curToken
    let name : Identifier := { token := p.curToken, value := p.curToken.literal }
    if p.peekTokenIs TokenType.LPAREN then
      commandArgsLoop fuel tok name [] [] 0 p.nextToken.nextToken
    else
      some (some (Statement.command tok name []), p)

/-- The operand-collection loop shared (textually identical code) by
parseIfConditionExpression (parser.go lines 330-333) and parseIfVarOperator
(lines 369-372): accumulate token literals until a closing parenthesis.
There is no EOF check in the source, so on a stream that never produces
RPAREN the loop never exits. -/
def condOperandLoop : Nat → List String → Parser → Option (List String × Parser)
  | 0, _, _ => none
  | fuel+1, parts, p =>
    if p.curToken.type = TokenType.RPAREN then
      some (parts, p)
    else
      condOperandLoop fuel (parts ++ [p.curToken.literal]) p.nextToken

/-- parseIfVarOperator: require one of the six relational operators, then a
comparison value running to the closing parenthesis, then an opening brace. -/
def parseIfVarOperator : Nat → ConditionExpression → Parser →
    Option ((Bool × ConditionExpression) × Parser)
  | 0, _, _ => none
  | fuel+1, e, p =>
    if p.curToken.type ≠ TokenType.GT ∧ p.curToken.type ≠ TokenType.GTE ∧
        p.curToken.type ≠ TokenType.LT ∧ p.curToken.type ≠ TokenType.LTE ∧
        p.curToken.type ≠ TokenType.EQ ∧ p.curToken.type ≠ TokenType.NEQ then
      let n := p.curToken.lineNumber
      let lit := p.curToken.literal
      some ((false, e), { p with
        errors := p.errors ++ [s!"line {n}: invalid condition operator '{lit}'"] })
    else
      let e := e.withOperator p.curToken.type
      let p := p.nextToken
      if p.curToken.type = TokenType.RPAREN then
        let n := p.curToken.lineNumber
        some ((false, e), { p with
          errors := p.errors ++ [s!"line {n}: missing comparison value for if statement"] })
      else
        match condOperandLoop fuel [] p with
        | none => none
        | some (parts, p) =>
          match p.expectPeek TokenType.LBRACE with
          | (false, p) => some ((false, e), p)
          | (true, p) =>
            let e := e.withComparisonValue (String.intercalate " " parts)
            some ((true, e), p.nextToken)

/-- parseIfFlagOperator: require `==`, then TRUE or FALSE, then the closing
parenthesis and an opening brace.  This function contains no loops, so it
needs no fuel. -/
def parseIfFlagOperator (e : ConditionExpression) (p : Parser) :
    (Bool × ConditionExpression) × Parser :=
  if p.curToken.type ≠ TokenType.EQ then
    let n := p.curToken.lineNumber
    let lit := p.curToken.literal
    ((false, e), { p with
      errors := p.errors ++ [s!"line {n}: invalid condition operator '{lit}'. Only '==' is allowed."] })
  else
    let e := e.withOperator p.curToken.type
    let p := p.nextToken
    if p.curToken.type = TokenType.RPAREN then
      let n := p.curToken.lineNumber
      ((false, e), { p with
        errors := p.errors ++ [s!"line {n}: missing comparison value for if statement"] })
    else if p.curToken.type ≠ TokenType.TRUE ∧ p.curToken.type ≠ TokenType.FALSE then
      let n := p.curToken.lineNumber
      let lit := p.curToken.literal
      ((false, e), { p with
        errors := p.errors ++
          [s!"line {n}: invalid flag comparison value '{lit}'. Only 'TRUE' and 'FALSE' are allowed."] })
    else
      let e := e.withComparisonValue (typeString p.curToken.type)
      match p.expectPeek TokenType.RPAREN with
      | (false, p) => ((false, e), p)
      | (true, p) =>
        match p.expectPeek TokenType.LBRACE with
        | (false, p) => ((false, e), p)
        | (true, p) => ((true, e), p.nextToken)

/-- parseRawStatement: `raw`/`rawglobal`, a name identifier, and a raw-string
value.  No loops, so no fuel. -/
def parseRawStatement (p : Parser) : Option Statement × Parser :=
  let tok := p.curToken
  let isGlobal := decide (p.curToken.type = TokenType.RAWGLOBAL)
  match p.expectPeek TokenType.IDENT with
  | (false, p) => (none, p)
  | (true, p) =>
    let name : Identifier := { token := p.curToken, value := p.curToken.literal }
    match p.expectPeek TokenType.RAWSTRING with
    | (false, p) => (none, p)
    | (true, p) => (some (Statement.raw tok isGlobal name p.curToken.literal), p)

mutual

/-- The loop of parseBlockStatement (parser.go lines 147-161): parse statements
until a closing brace; on EOF record a missing-brace error naming the line of
the block's recorded token (the token at which the block's parse began). -/
def parseBlockLoop : Nat → Token → List Statement → Parser → Option (Option BlockStatement × Parser)
  | 0, _, _, _ => none
  | fuel+1, blockTok, stmts, p =>
    if p.curToken.type = TokenType.RBRACE then
      some (some (BlockStatement.mk blockTok stmts), p)
    else if p.curToken.type = TokenType.EOF then
      let n := blockTok.lineNumber
      some (none, { p with
        errors := p.errors ++ [s!"line {n}: missing closing curly brace for block statement"] })
    else
      match parseStatement fuel p with
      | none => none
      | some (none, p) => some (none, p)
      | some (some stmt, p) => parseBlockLoop fuel blockTok (stmts ++ [stmt]) p.nextToken

/-- parseBlockStatement: records the current token as the block's token and
runs the block loop. -/
def parseBlockStatement : Nat → Parser → Option (Option BlockStatement × Parser)
  | 0, _ => none
  | fuel+1, p => parseBlockLoop fuel p.curToken [] p

/-- parseStatement: an identifier starts a command statement, `if` starts an
if statement, anything else is a statement-level parse error (whose message,
as in the source, ends with a newline). -/
def parseStatement : Nat → Parser → Option (Option Statement × Parser)
  | 0, _ => none
  | fuel+1, p =>
    if p.curToken.type = TokenType.IDENT then
      parseCommandStatement fuel p
    else if p.curToken.type = TokenType.IF then
      parseIfStatement fuel p
    else
      let n := p.curToken.lineNumber
      let lit := p.curToken.literal
      some (none, { p with
        errors := p.errors ++ [s!"line {n}: could not parse statement for '{lit}'\n"] })

/-- The elif/else tail of parseIfStatement (parser.go lines 279-305). -/
def parseIfElifLoop : Nat → Token → ConditionExpression → List ConditionExpression → Parser →
    Option (Option Statement × Parser)
  | 0, _, _, _, _ => none
  | fuel+1, tok, consequence, elifs, p =>
    if p.peekToken.type = TokenType.ELSEIF then
      let p := p.nextToken
      match p.expectPeek TokenType.LPAREN with
      | (false, p) =>
        let n := p.curToken.lineNumber
        let lit := p.peekToken.literal
        some (none, { p with
          errors := p.errors ++ [s!"line {n}: missing opening parenthesis of elif statement '{lit}'"] })
      | (true, p) =>
        match parseIfConditionExpression fuel p.peekToken.lineNumber p with
        | none => none
        | some (none, p) => some (none, p)
        | some (some c, p) => parseIfElifLoop fuel tok consequence (elifs ++ [c]) p
    else if p.peekToken.type = TokenType.ELSE then
      let p := p.nextToken
      match p.expectPeek TokenType.LBRACE with
      | (false, p) =>
        let n := p.peekToken.lineNumber
        let lit := p.peekToken.literal
        some (none, { p with
          errors := p.errors ++ [s!"line {n}: missing opening curly brace of else statement '{lit}'"] })
      | (true, p) =>
        let p := p.nextToken
        match parseBlockStatement fuel p with
        | none => none
        | some (elseB, p) => some (some (Statement.ifS tok consequence elifs elseB), p)
    else
      some (some (Statement.ifS tok consequence elifs none), p)

/-- parseIfStatement: `(`, a first condition expression, possibly-many elif
conditions, and an optional trailing else block. -/
def parseIfStatement : Nat → Parser → Option (Option Statement × Parser)
  | 0, _ => none
  | fuel+1, p =>
    let tok := p.curToken
    match p.expectPeek TokenType.LPAREN with
    | (false, p) =>
      let n := tok.lineNumber
      let lit := p.peekToken.literal
      some (none, { p with
        errors := p.errors ++ [s!"line {n}: missing opening parenthesis of if statement '{lit}'"] })
    | (true, p) =>
      match parseIfConditionExpression fuel tok.lineNumber p with
      | none => none
      | some (none, p) => some (none, p)
      | some (some c, p) => parseIfElifLoop fuel tok c [] p

/-- parseIfConditionExpression: the token after `(` must be `var` or `flag`;
then `(`, an operand running to `)`, the kind-specific operator/value parsing,
and the condition's block. -/
def parseIfConditionExpression : Nat → Nat → Parser → Option (Option ConditionExpression × Parser)
  | 0, _, _ => none
  | fuel+1, lineNumber, p =>
    if ¬ (p.peekTokenIs TokenType.VAR) ∧ ¬ (p.peekTokenIs TokenType.FLAG) then
      let lit := p.peekToken.literal
      some (none, { p with
        errors := p.errors ++ [s!"line {lineNumber}: invalid if statement command '{lit}'"] })
    else
      let p := p.nextToken
      let e := ConditionExpression.mk p.curToken.type "" TokenType.EMPTY "" none
      match p.expectPeek TokenType.LPAREN with
      | (false, p) =>
        let op := typeString e.condType
        some (none, { p with
          errors := p.errors ++
            [s!"line {lineNumber}: missing opening parenthesis for if statement operator '{op}'"] })
      | (true, p) =>
        if p.peekToken.type = TokenType.RPAREN then
          let op := typeString e.condType
          some (none, { p with
            errors := p.errors ++
              [s!"line {lineNumber}: missing value for if statement operator '{op}'"] })
        else
          let p := p.nextToken
          match condOperandLoop fuel [] p with
          | none => none
          | some (parts, p) =>
            let e := e.withOperand (String.intercalate " " parts)
            let p := p.nextToken
            match
              if e.condType = TokenType.VAR then
                parseIfVarOperator fuel e p
              else if e.condType = TokenType.FLAG then
                some (parseIfFlagOperator e p)
              else
                some ((true, e), p)
            with
            | none => none
            | some ((false, _), p) => some (none, p)
            | some ((true, e), p) =>
              match parseBlockStatement fuel p with
              | none => none
              | some (body, p) => some (some (e.withBody body), p)

end

/-- parseScriptStatement: `script`, a name identifier, `{`, and the body
block. -/
def parseScriptStatement : Nat → Parser → Option (Option Statement × Parser)
  | 0, _ => none
  | fuel+1, p =>
    let tok := p.curToken
    match p.expectPeek TokenType.IDENT with
    | (false, p) => some (none, p)
    | (true, p) =>
      let name : Identifier := { token := p.curToken, value := p.curToken.literal }
      match p.expectPeek TokenType.LBRACE with
      | (false, p) => some (none, p)
      | (true, p) =>
        match parseBlockStatement fuel p.nextToken with
        | none => none
        | some (body, p) => some (some (Statement.script tok name body), p)

/-- parseTopLevelStatement: only `script` and `raw`/`rawglobal` statements are
valid at the top level. -/
def parseTopLevelStatement : Nat → Parser → Option (Option Statement × Parser)
  | 0, _ => none
  | fuel+1, p =>
    if p.curToken.type = TokenType.SCRIPT then
      parseScriptStatement fuel p
    else if p.curToken.type = TokenType.RAW ∨ p.curToken.type = TokenType.RAWGLOBAL then
      some (parseRawStatement p)
    else
      let n := p.curToken.lineNumber
      let lit := p.curToken.literal
      some (none, { p with
        errors := p.errors ++ [s!"line {n}: could not parse top-level statement for '{lit}'"] })

/-- The text pool built by ParseProgram from the implicit-text list: entry i is
named with getImplicitTextLabel i and carries the i-th discovered literal. -/
def buildImplicitTexts (ts : List String) : List Text :=
  ts.enum.map (fun it => { name := getImplicitTextLabel it.1, value := it.2 })

/-- The top-level loop of ParseProgram (parser.go lines 75-87): parse top-level
statements until EOF, abandoning with a nil program as soon as the error list
is non-empty; at EOF the implicit texts are materialized into the program's
text pool. -/
def parseProgramLoop : Nat → List Statement → Parser → Option (Option Program × Parser)
  | 0, _, _ => none
  | fuel+1, stmts, p =>
    if p.curToken.type = TokenType.EOF then
      some (some { topLevelStatements := stmts, texts := buildImplicitTexts p.implicitTexts }, p)
    else
      match parseTopLevelStatement fuel p with
      | none => none
      | some (stmt, p) =>
        if p.errors ≠ [] then
          some (none, p)
        else
          let stmts := match stmt with
            | some s => stmts ++ [s]
            | none => stmts
          parseProgramLoop fuel stmts p.nextToken

/-- ParseProgram: reset the implicit-text list, then run the top-level loop. -/
def parseProgram (fuel : Nat) (p : Parser) : Option (Option Program × Parser) :=
  parseProgramLoop fuel [] { p with implicitTexts := [] }

/-! Concrete token streams used to evaluate the parser at specific inputs,
and small extractors projecting the parts of a result a property talks
about. -/

/-- Shorthand for a concrete lexer token. -/
def tk (t : TokenType) (lit : String) (n : Nat := 1) : Token :=
  { type := t, literal := lit, lineNumber := n }

/-- Token stream of the command `foo(a(b,c),d)`: the first comma sits inside
nested parentheses (depth 1), the second at depth 0. -/
def tsArgsNested : List Token :=
  [tk .IDENT "foo", tk .LPAREN "(", tk .IDENT "a", tk .LPAREN "(", tk .IDENT "b",
   tk .COMMA ",", tk .IDENT "c", tk .RPAREN ")", tk .COMMA ",", tk .IDENT "d",
   tk .RPAREN ")", tk .EOF ""]

/-- The argument list produced for a command statement parsed from a stream,
when parsing succeeds. -/
def runCommandArgs (fuel : Nat) (ts : List Token) : Option (List String) :=
  match parseCommandStatement fuel (Parser.new ts) with
  | some (some (Statement.command _ _ args), _) => some args
  | _ => none

/-- Token stream of `script s { msgbox("hello", "world") }`: one command with
two inline string literals. -/
def tsTwoStrings : List Token :=
  [tk .SCRIPT "script", tk .IDENT "s", tk .LBRACE "\x7b", tk .IDENT "msgbox",
   tk .LPAREN "(", tk .STRING "hello", tk .COMMA ",", tk .STRING "world",
   tk .RPAREN ")", tk .RBRACE "\x7d", tk .EOF ""]

/-- Project, from a ParseProgram result whose program is a single script whose
block holds a single command, that command's arguments together with the
program's text pool. -/
def sampleExtract : Option (Option Program × Parser) → Option (List String × List Text)
  | some (some prog, _) =>
    match prog.topLevelStatements with
    | [Statement.script _ _ (some (BlockStatement.mk _ [Statement.command _ _ args]))] =>
      some (args, prog.texts)
    | _ => none
  | _ => none

/-- Token stream of `script s {` followed by end of input on the next line:
the opening brace is on line 1, the EOF token on line 2. -/
def tsBlockEof : List Token :=
  [tk .SCRIPT "script" 1, tk .IDENT "s" 1, tk .LBRACE "\x7b" 1, tk .EOF "" 2]

/-- Token stream of `script {`: the script-name identifier is missing, so
expectPeek records a peekError. -/
def tsPeekErrTop : List Token :=
  [tk .SCRIPT "script" 1, tk .LBRACE "\x7b" 1, tk .EOF "" 1]

/-- Token stream of the condition
`if (flag(A) == TRUE && flag(B) == TRUE) { }`: two operator-expressions joined
by `&&`. -/
def tsAndCond : List Token :=
  [tk .IF "if", tk .LPAREN "(", tk .FLAG "flag", tk .LPAREN "(", tk .IDENT "A",
   tk .RPAREN ")", tk .EQ "==", tk .TRUE "TRUE", tk .AND "&&", tk .FLAG "flag",
   tk .LPAREN "(", tk .IDENT "B", tk .RPAREN ")", tk .EQ "==", tk .TRUE "TRUE",
   tk .RPAREN ")", tk .LBRACE "\x7b", tk .RBRACE "\x7d", tk .EOF ""]

/-- Token stream of a single well-formed condition `if (var(X) == 1) { }`. -/
def tsVarOk : List Token :=
  [tk .IF "if", tk .LPAREN "(", tk .VAR "var", tk .LPAREN "(", tk .IDENT "X",
   tk .RPAREN ")", tk .EQ "==", tk .IDENT "1", tk .RPAREN ")", tk .LBRACE "\x7b",
   tk .RBRACE "\x7d", tk .EOF ""]

/-- Token stream of `script s { if ( var ( X` cut off by end of input: the
operand of the condition is never closed by a `)`. -/
def tsUnclosedVar : List Token :=
  [tk .SCRIPT "script" 1, tk .IDENT "s" 1, tk .LBRACE "\x7b" 1, tk .IF "if" 1,
   tk .LPAREN "(" 1, tk .VAR "var" 1, tk .LPAREN "(" 1, tk .IDENT "X" 1,
   tk .EOF "" 2]

/-- A fresh condition expression as parseIfConditionExpression builds it for a
`var` condition. -/
def varCondExpr : ConditionExpression :=
  ConditionExpression.mk TokenType.VAR "" TokenType.EMPTY "" none

/-- A parser state whose current token is a comma (line 3). -/
def pAtComma : Parser := Parser.new [tk .COMMA "," 3, tk .EOF "" 3]

/-- A parser state whose current token is a string literal. -/
def pAtString : Parser :=
  Parser.new [tk .STRING "hi" 1, tk .RPAREN ")" 1, tk .EOF "" 1]

/-- A parser state whose current token is EOF (line 4). -/
def pAtEof : Parser := Parser.new [tk .EOF "" 4]

/-- A parser state whose current token is an identifier not followed by an
opening parenthesis. -/
def pCmdNoParen : Parser := Parser.new [tk .IDENT "release" 2, tk .RBRACE "\x7d" 2, tk .EOF "" 2]

/-! The error-message formats of parser.go, as standalone functions of the
data they embed, used to state which line number each recorded message
carries. -/

/-- Message of parseCommandStatement at EOF inside an argument list. -/
def missingCmdParenMsg (n : Nat) (cname : String) : String :=
  s!"line {n}: missing closing parenthesis for command '{cname}'"

/-- Message of parseBlockStatement at EOF inside a block. -/
def missingBlockBraceMsg (n : Nat) : String :=
  s!"line {n}: missing closing curly brace for block statement"

/-- Message of parseTopLevelStatement at an invalid top-level token. -/
def topLevelErrMsg (n : Nat) (lit : String) : String :=
  s!"line {n}: could not parse top-level statement for '{lit}'"

/-- Message of parseIfConditionExpression at a non-var, non-flag condition. -/
def invalidIfCommandMsg (n : Nat) (lit : String) : String :=
  s!"line {n}: invalid if statement command '{lit}'"

/-- Message of parseIfVarOperator at a non-relational operator token. -/
def invalidCondOperatorMsg (n : Nat) (lit : String) : String :=
  s!"line {n}: invalid condition operator '{lit}'"

/-- Message of parseIfFlagOperator at a non-`==` operator token. -/
def invalidFlagOperatorMsg (n : Nat) (lit : String) : String :=
  s!"line {n}: invalid condition operator '{lit}'. Only '==' is allowed."

/-- Message of parseIfFlagOperator at a non-boolean comparison token. -/
def invalidFlagValueMsg (n : Nat) (lit : String) : String :=
  s!"line {n}: invalid flag comparison value '{lit}'. Only 'TRUE' and 'FALSE' are allowed."

/-! Helper lemmas. -/

/-- Updating the operand leaves the condition type unchanged. -/
@[simp] theorem condType_withOperand (e : ConditionExpression) (o : String) :
    (e.withOperand o).condType = e.condType := by
  cases e; rfl

/-- Updating the operator leaves the condition type unchanged. -/
@[simp] theorem condType_withOperator (e : ConditionExpression) (op : TokenType) :
    (e.withOperator op).condType = e.condType := by
  cases e; rfl

/-- Updating the comparison value leaves the condition type unchanged. -/
@[simp] theorem condType_withComparisonValue (e : ConditionExpression) (v : String) :
    (e.withComparisonValue v).condType = e.condType := by
  cases e; rfl

/-- Setting the body leaves the condition type unchanged. -/
@[simp] theorem condType_withBody (e : ConditionExpression) (b : Option BlockStatement) :
    (e.withBody b).condType = e.condType := by
  cases e; rfl

/-- Updating the operator stores it. -/
@[simp] theorem operator_withOperator (e : ConditionExpression) (op : TokenType) :
    (e.withOperator op).operator = op := by
  cases e; rfl

/-- Updating the comparison value leaves the operator unchanged. -/
@[simp] theorem operator_withComparisonValue (e : ConditionExpression) (v : String) :
    (e.withComparisonValue v).operator = e.operator := by
  cases e; rfl

/-- Setting the body leaves the operator unchanged. -/
@[simp] theorem operator_withBody (e : ConditionExpression) (b : Option BlockStatement) :
    (e.withBody b).operator = e.operator := by
  cases e; rfl

/-- Updating the comparison value stores it. -/
@[simp] theorem comparisonValue_withComparisonValue (e : ConditionExpression) (v : String) :
    (e.withComparisonValue v).comparisonValue = v := by
  cases e; rfl

/-- Setting the body leaves the comparison value unchanged. -/
@[simp] theorem comparisonValue_withBody (e : ConditionExpression) (b : Option BlockStatement) :
    (e.withBody b).comparisonValue = e.comparisonValue := by
  cases e; rfl

/-- Advancing the lexer does not touch the implicit-text list. -/
@[simp] theorem nextToken_implicitTexts (p : Parser) :
    p.nextToken.implicitTexts = p.implicitTexts := rfl

/-- Advancing the lexer does not touch the error list. -/
@[simp] theorem nextToken_errors (p : Parser) :
    p.nextToken.errors = p.errors := rfl

/-- Whenever the argument-list loop of parseCommandStatement returns, the
implicit-text list of the resulting parser state extends the incoming one:
earlier discoveries are never reordered or dropped. -/
theorem commandArgsLoop_texts_mono :
    ∀ (fuel : Nat) (tok : Token) (name : Identifier) (args argParts : List String)
      (numOpenParens : Int) (p : Parser) (res : Option Statement) (q : Parser),
      commandArgsLoop fuel tok name args argParts numOpenParens p = some (res, q) →
      ∃ new, q.implicitTexts = p.implicitTexts ++ new := by
  intro fuel
  induction fuel with
  | zero => intro tok name args argParts n p res q h; simp [commandArgsLoop] at h
  | succ fuel ih =>
    intro tok name args argParts n p res q h
    rw [commandArgsLoop] at h
    split at h
    · rcases h with ⟨rfl⟩
      exact ⟨[], by simp⟩
    · split at h
      · rcases h with ⟨rfl⟩
        exact ⟨[], by simp⟩
      · split at h
        · obtain ⟨new, hn⟩ := ih _ _ _ _ _ _ _ _ h
          exact ⟨new, by simpa using hn⟩
        · split at h
          · obtain ⟨new, hn⟩ := ih _ _ _ _ _ _ _ _ h
            exact ⟨new, by simpa using hn⟩
          · split at h
            · obtain ⟨new, hn⟩ := ih _ _ _ _ _ _ _ _ h
              exact ⟨new, by simpa using hn⟩
            · split at h
              · obtain ⟨new, hn⟩ := ih _ _ _ _ _ _ _ _ h
                refine ⟨p.curToken.literal :: new, ?_⟩
                simpa [List.append_assoc] using hn
              · obtain ⟨new, hn⟩ := ih _ _ _ _ _ _ _ _ h
                exact ⟨new, by simpa using hn⟩

/-- Whenever the top-level loop of ParseProgram returns a program, that
program's text pool is built, entry by entry, from the final implicit-text
list. -/
theorem parseProgramLoop_texts :
    ∀ (fuel : Nat) (stmts : List Statement) (p : Parser) (prog : Program) (q : Parser),
      parseProgramLoop fuel stmts p = some (some prog, q) →
      prog.texts = buildImplicitTexts q.implicitTexts := by
  intro fuel
  induction fuel with
  | zero => intro stmts p prog q h; simp [parseProgramLoop] at h
  | succ fuel ih =>
    intro stmts p prog q h
    rw [parseProgramLoop] at h
    split at h
    · rcases h with ⟨rfl, rfl⟩
      rfl
    · split at h
      · simp at h
      · split at h
        · simp at h
        · exact ih _ _ _ _ h

/-- Whenever the top-level loop of ParseProgram returns and the loop was
entered with an empty error list, the program is nil exactly when the final
error list is non-empty. -/
theorem parseProgramLoop_nil_iff :
    ∀ (fuel : Nat) (stmts : List Statement) (p : Parser) (res : Option Program) (q : Parser),
      p.errors = [] →
      parseProgramLoop fuel stmts p = some (res, q) →
      (res = none ↔ q.errors ≠ []) := by
  intro fuel
  induction fuel with
  | zero => intro stmts p res q hp h; simp [parseProgramLoop] at h
  | succ fuel ih =>
    intro stmts p res q hp h
    rw [parseProgramLoop] at h
    split at h
    · rcases h with ⟨rfl, rfl⟩
      simp [hp]
    · split at h
      · simp at h
      · rename_i stmt2 p2 heq
        split at h
        · rename_i herr
          rcases h with ⟨rfl, rfl⟩
          simpa using herr
        · rename_i herr
          rw [Decidable.not_not] at herr
          exact ih _ p2.nextToken res q (by simpa using herr) h

/-- Entry i of the text pool built from an implicit-text list is named with
the i-th implicit label. -/
theorem buildImplicitTexts_get_name :
    ∀ (ts : List String) (i : Nat) (h : i < (buildImplicitTexts ts).length),
      ((buildImplicitTexts ts).get ⟨i, h⟩).name = getImplicitTextLabel i := by
  intro ts i h
  simp only [buildImplicitTexts, List.get_eq_getElem, List.getElem_map]
  have hi : i < ts.enum.length := by
    simpa [buildImplicitTexts] using h
  rw [List.getElem_enum]

/-- Once the lexer stream is exhausted and neither the current nor the peek
token is a closing parenthesis, the operand-collection loop of
parseIfConditionExpression / parseIfVarOperator never exits: it consumes the
lexer's endless EOF tokens forever, so no amount of fuel makes it return. -/
theorem condOperandLoop_stuck :
    ∀ (fuel : Nat) (parts : List String) (p : Parser),
      p.rest = [] →
      p.curToken.type ≠ TokenType.RPAREN →
      p.peekToken.type ≠ TokenType.RPAREN →
      condOperandLoop fuel parts p = none := by
  intro fuel
  induction fuel with
  | zero => intro parts p _ _ _; rfl
  | succ fuel ih =>
    intro parts p hrest hcur hpeek
    rw [condOperandLoop]
    rw [if_neg hcur]
    apply ih
    · simp [Parser.nextToken, hrest, lexNext]
    · simpa [Parser.nextToken, hrest, lexNext] using hpeek
    · simp [Parser.nextToken, hrest, lexNext, eofToken]

/-- Success inversion for parseIfVarOperator: returning ok can only happen
when the current token is one of the six relational operators, and that
operator is stored in the expression; the condition type is untouched. -/
theorem parseIfVarOperator_true_inv :
    ∀ (fuel : Nat) (e : ConditionExpression) (p : Parser) (e' : ConditionExpression) (q : Parser),
      parseIfVarOperator fuel e p = some ((true, e'), q) →
      (p.curToken.type = TokenType.GT ∨ p.curToken.type = TokenType.GTE ∨
       p.curToken.type = TokenType.LT ∨ p.curToken.type = TokenType.LTE ∨
       p.curToken.type = TokenType.EQ ∨ p.curToken.type = TokenType.NEQ) ∧
      e'.operator = p.curToken.type ∧ e'.condType = e.condType := by
  intro fuel e p e' q h
  cases fuel with
  | zero => simp [parseIfVarOperator] at h
  | succ fuel =>
    simp only [parseIfVarOperator] at h
    split at h
    · simp at h
    · rename_i hop
      split at h
      · simp at h
      · split at h
        · simp at h
        · split at h
          · simp at h
          · rcases h with ⟨⟨rfl⟩, rfl⟩
            refine ⟨?_, by simp, by simp⟩
            tauto

/-- Success inversion for parseIfFlagOperator: returning ok can only happen
when the current token is `==` and converts the TRUE/FALSE comparison token
into the stored comparison value; the condition type is untouched. -/
theorem parseIfFlagOperator_true_inv :
    ∀ (e : ConditionExpression) (p : Parser) (e' : ConditionExpression) (q : Parser),
      parseIfFlagOperator e p = ((true, e'), q) →
      p.curToken.type = TokenType.EQ ∧ e'.operator = TokenType.EQ ∧
      (e'.comparisonValue = "TRUE" ∨ e'.comparisonValue = "FALSE") ∧
      e'.condType = e.condType := by
  intro e p e' q h
  simp only [parseIfFlagOperator] at h
  split at h
  · simp at h
  · rename_i hop
    rw [Decidable.not_not] at hop
    split at h
    · simp at h
    · split at h
      · simp at h
      · rename_i hval
        split at h
        · simp at h
        · split at h
          · simp at h
          · rcases h with ⟨⟨rfl⟩, rfl⟩
            refine ⟨hop, by simp [hop], ?_, by simp⟩
            rcases Decidable.em (p.nextToken.curToken.type = TokenType.TRUE) with ht | ht
            · left
              simp [ht, typeString]
            · right
              have hf : p.nextToken.curToken.type = TokenType.FALSE := by tauto
              simp [hf, typeString]

/-- Success inversion for parseIfConditionExpression: a returned (non-nil)
condition expression has type `var` or `flag`; when it is `var` its operator
is one of the six relational operators, and when it is `flag` its operator is
`==` and its comparison value is TRUE or FALSE. -/
theorem parseIfConditionExpression_some_inv :
    ∀ (fuel lineNumber : Nat) (p : Parser) (e : ConditionExpression) (q : Parser),
      parseIfConditionExpression fuel lineNumber p = some (some e, q) →
      (e.condType = TokenType.VAR ∨ e.condType = TokenType.FLAG) ∧
      (e.condType = TokenType.VAR →
        (e.operator = TokenType.GT ∨ e.operator = TokenType.GTE ∨
         e.operator = TokenType.LT ∨ e.operator = TokenType.LTE ∨
         e.operator = TokenType.EQ ∨ e.operator = TokenType.NEQ)) ∧
      (e.condType = TokenType.FLAG →
        e.operator = TokenType.EQ ∧
        (e.comparisonValue = "TRUE" ∨ e.comparisonValue = "FALSE")) := by
  intro fuel lineNumber p e q h
  cases fuel with
  | zero => simp [parseIfConditionExpression] at h
  | succ fuel =>
    simp only [parseIfConditionExpression] at h
    split at h
    · simp at h
    · rename_i hkind
      rw [Decidable.not_and_iff_or_not, Decidable.not_not, Decidable.not_not] at hkind
      simp only [Parser.peekTokenIs, decide_eq_true_eq] at hkind
      split at h
      · simp at h
      · split at h
        · simp at h
        · split at h
          · simp at h
          · rename_i parts p3 hloop
            split at h
            · simp at h
            · simp at h
            · rename_i e4 p4 hbr
              split at h
              · simp at h
              · rename_i body p5 hblock
                injection h with h1
                injection h1 with h2 h3
                injection h2 with h4
                subst h3
                subst h4
                have hcond : p.nextToken.curToken.type = TokenType.VAR ∨
                    p.nextToken.curToken.type = TokenType.FLAG := by
                  simpa [Parser.nextToken] using hkind
                split at hbr
                · -- var branch
                  rename_i hvar
                  obtain ⟨hsix, hop, hty⟩ := parseIfVarOperator_true_inv _ _ _ _ _ hbr
                  have h4 : e4.condType = TokenType.VAR := by rw [hty, hvar]
                  refine ⟨Or.inl (by simp [h4]), fun _ => ?_, fun hcontra => ?_⟩
                  · simpa [hop] using hsix
                  · rw [condType_withBody, h4] at hcontra
                    simp at hcontra
                · split at hbr
                  · -- flag branch
                    rename_i hvar hflag
                    injection hbr with hbr1
                    obtain ⟨_, hop, hval, hty⟩ :=
                      parseIfFlagOperator_true_inv _ _ _ _ hbr1
                    have h4 : e4.condType = TokenType.FLAG := by rw [hty, hflag]
                    refine ⟨Or.inr (by simp [h4]), fun hcontra => ?_, fun _ => ?_⟩
                    · rw [condType_withBody, h4] at hcontra
                      simp at hcontra
                    · exact ⟨by simpa using hop, by simpa using hval⟩
                  · -- neither var nor flag: contradicts the peek check
                    rename_i hvar hflag
                    exfalso
                    rcases hcond with hc | hc
                    · exact hvar (by
                        simp only [hc, ConditionExpression.withOperand, ConditionExpression.condType])
                    · exact hflag (by
                        simp only [hc, ConditionExpression.withOperand, ConditionExpression.condType])

/-- C1, counterexample.  The claim says a comma inside nested parentheses
(depth counter positive) does not terminate the current argument.  In the
code the comma case of the argument loop is not guarded by the depth counter:
parsing `foo(a(b,c),d)` splits at the depth-1 comma between `b` and `c`,
producing the three arguments `a ( b`, `c )`, `d` instead of the two
arguments `a ( b , c )`, `d` that depth-0-only splitting would produce. -/
theorem c1_nested_comma_splits_argument :
    runCommandArgs 30 tsArgsNested = some ["a ( b", "c )", "d"] ∧
    (["a ( b", "c )", "d"] : List String) ≠ ["a ( b , c )", "d"] :=
  ⟨rfl, by decide⟩

/-- C1, amended.  In the command-argument loop a comma ends the current
argument at every parenthesis depth, not only at depth 0; the depth counter
only controls which closing parenthesis terminates the whole argument list
(a `)` seen while the counter is non-zero is consumed into the current
argument and decrements the counter instead of ending the loop). -/
theorem c1_comma_splits_at_any_depth :
    (∀ (fuel : Nat) (tok : Token) (name : Identifier) (args argParts : List String)
      (numOpenParens : Int) (p : Parser),
      p.curToken.type = TokenType.COMMA →
      commandArgsLoop (fuel+1) tok name args argParts numOpenParens p =
        commandArgsLoop fuel tok name (args ++ [String.intercalate " " argParts]) []
          numOpenParens p.nextToken) ∧
    (∀ (fuel : Nat) (tok : Token) (name : Identifier) (args argParts : List String)
      (numOpenParens : Int) (p : Parser),
      p.curToken.type = TokenType.RPAREN →
      numOpenParens ≠ 0 →
      commandArgsLoop (fuel+1) tok name args argParts numOpenParens p =
        commandArgsLoop fuel tok name args (argParts ++ [p.curToken.literal])
          (numOpenParens - 1) p.nextToken) := by
  constructor
  · intro fuel tok name args argParts n p h
    rw [commandArgsLoop, if_neg (by simp [h]), if_neg (by simp [h]), if_pos h]
  · intro fuel tok name args argParts n p h hn
    rw [commandArgsLoop, if_neg (by simp [h, hn]), if_neg (by simp [h]),
      if_neg (by simp [h]), if_neg (by simp [h]), if_pos h]

/-- C1, witness for the amended theorem at a concrete comma and a concrete
nested closing parenthesis. -/
theorem c1_comma_splits_at_any_depth_witness :
    commandArgsLoop 4 (tk .IDENT "foo") { token := tk .IDENT "foo", value := "foo" }
        [] ["a"] 1 pAtComma =
      commandArgsLoop 3 (tk .IDENT "foo") { token := tk .IDENT "foo", value := "foo" }
        ["a"] [] 1 pAtComma.nextToken :=
  c1_comma_splits_at_any_depth.1 3 (tk .IDENT "foo")
    { token := tk .IDENT "foo", value := "foo" } [] ["a"] 1 pAtComma rfl

/-- C3.  ParseProgram (entered, as after parser.New, with an empty error
list) returns nil exactly when the error list is non-empty at the end: a
partially built AST is never returned alongside errors. -/
theorem c3_nil_program_iff_errors :
    ∀ (fuel : Nat) (p : Parser) (res : Option Program) (q : Parser),
      p.errors = [] →
      parseProgram fuel p = some (res, q) →
      (res = none ↔ q.errors ≠ []) := by
  intro fuel p res q hp h
  exact parseProgramLoop_nil_iff fuel [] { p with implicitTexts := [] } res q hp h

/-- C3, witness: the empty token stream parses to a program with no errors,
and the theorem instantiates there. -/
theorem c3_nil_program_iff_errors_witness :
    ((some (Program.mk [] []) : Option Program) = none ↔ (Parser.new []).errors ≠ []) :=
  c3_nil_program_iff_errors 1 (Parser.new []) (some (Program.mk [] [])) (Parser.new []) rfl rfl

/-- C5, divergence evidence.  On the token stream of `script s { if ( var ( X`
cut off by end of input, the operand-collection loop of
parseIfConditionExpression has no EOF check, so ParseProgram consumes the
lexer's endless EOF tokens forever: no amount of fuel makes it return.  This
contradicts the claim that the parser terminates with an error list on every
finite token stream. -/
theorem c5_unclosed_condition_never_returns :
    ∀ (fuel : Nat), parseProgram fuel (Parser.new tsUnclosedVar) = none
  | 0 => rfl
  | 1 => rfl
  | 2 => rfl
  | 3 => rfl
  | 4 => rfl
  | 5 => rfl
  | 6 => rfl
  | 7 => rfl
  | n+8 => by
    have hstuck : condOperandLoop n []
        { curToken := { type := TokenType.IDENT, literal := "X", lineNumber := 1 },
          peekToken := { type := TokenType.EOF, literal := "", lineNumber := 2 },
          rest := [], errors := [], implicitTexts := [] } = none :=
      condOperandLoop_stuck n _ _ rfl (by decide) (by decide)
    show parseProgram (n+8) (Parser.new tsUnclosedVar) = none
    simp [parseProgram, parseProgramLoop, parseTopLevelStatement, parseScriptStatement,
      parseBlockStatement, parseBlockLoop, parseStatement, parseIfStatement,
      parseIfConditionExpression, Parser.expectPeek, Parser.peekTokenIs, Parser.nextToken,
      Parser.new, lexNext, tsUnclosedVar, tk, hstuck]

/-- C10.  A command statement whose name identifier is not followed by `(`
yields a CommandStatement with an empty argument list, and the parser state
is returned unchanged: no token beyond the identifier is consumed. -/
theorem c10_command_without_parens :
    ∀ (fuel : Nat) (p : Parser),
      ¬ (p.peekToken.type = TokenType.LPAREN) →
      parseCommandStatement (fuel+1) p =
        some (some (Statement.command p.curToken
          { token := p.curToken, value := p.curToken.literal } []), p) := by
  intro fuel p h
  simp [parseCommandStatement, Parser.peekTokenIs, h]

/-- C10, witness at a concrete command identifier followed by `}`. -/
theorem c10_command_without_parens_witness :
    parseCommandStatement 1 pCmdNoParen =
      some (some (Statement.command pCmdNoParen.curToken
        { token := pCmdNoParen.curToken, value := pCmdNoParen.curToken.literal } []),
        pCmdNoParen) :=
  c10_command_without_parens 0 pCmdNoParen (by decide)

/-- C2.  A string literal met in a command's argument list is replaced in the
argument by the label for the current length of the implicit-text list while
the literal's value is appended to that list (first conjunct); every run of
the argument loop only ever appends to the implicit-text list, preserving
discovery order across the whole program (second conjunct); ParseProgram
materializes the final list into the program's Texts entry by entry, entry i
being named Text_i (third conjunct, with buildImplicitTexts); and concretely
a command with two inline literals yields arguments `Text_0`, `Text_1` and
two text entries named `Text_0`, `Text_1` in left-to-right order (fourth
conjunct). -/
theorem c2_implicit_text_extraction :
    (∀ (fuel : Nat) (tok : Token) (name : Identifier) (args argParts : List String)
      (numOpenParens : Int) (p : Parser),
      p.curToken.type = TokenType.STRING →
      commandArgsLoop (fuel+1) tok name args argParts numOpenParens p =
        commandArgsLoop fuel tok name args
          (argParts ++ [getImplicitTextLabel p.implicitTexts.length]) numOpenParens
          { p.nextToken with implicitTexts := p.implicitTexts ++ [p.curToken.literal] }) ∧
    (∀ (fuel : Nat) (tok : Token) (name : Identifier) (args argParts : List String)
      (numOpenParens : Int) (p : Parser) (res : Option Statement) (q : Parser),
      commandArgsLoop fuel tok name args argParts numOpenParens p = some (res, q) →
      ∃ new, q.implicitTexts = p.implicitTexts ++ new) ∧
    (∀ (fuel : Nat) (p : Parser) (prog : Program) (q : Parser),
      parseProgram fuel p = some (some prog, q) →
      prog.texts = buildImplicitTexts q.implicitTexts) ∧
    sampleExtract (parseProgram 30 (Parser.new tsTwoStrings)) =
      some (["Text_0", "Text_1"],
        [{ name := "Text_0", value := "hello" }, { name := "Text_1", value := "world" }]) := by
  refine ⟨?_, commandArgsLoop_texts_mono, ?_, rfl⟩
  · intro fuel tok name args argParts n p h
    rw [commandArgsLoop, if_neg (by simp [h]), if_neg (by simp [h]), if_neg (by simp [h]),
      if_neg (by simp [h]), if_neg (by simp [h]), if_pos h]
  · intro fuel p prog q h
    exact parseProgramLoop_texts fuel [] _ prog q h

/-- C2, witness at a concrete string-literal token. -/
theorem c2_implicit_text_extraction_witness :
    commandArgsLoop 4 (tk .IDENT "foo") { token := tk .IDENT "foo", value := "foo" }
        [] [] 0 pAtString =
      commandArgsLoop 3 (tk .IDENT "foo") { token := tk .IDENT "foo", value := "foo" }
        [] ([] ++ [getImplicitTextLabel pAtString.implicitTexts.length]) 0
        { pAtString.nextToken with
          implicitTexts := pAtString.implicitTexts ++ [pAtString.curToken.literal] } :=
  c2_implicit_text_extraction.1 3 (tk .IDENT "foo")
    { token := tk .IDENT "foo", value := "foo" } [] [] 0 pAtString rfl

/-- C9.  ParseProgram clears the implicit-text list on entry, so its result
is independent of whatever implicit texts a reused Parser instance had
accumulated (first conjunct); and any returned program's text pool is built
from the texts discovered in this call only, renumbered from Text_0 (second
conjunct). -/
theorem c9_parse_program_resets_texts :
    (∀ (fuel : Nat) (p : Parser) (ts : List String),
      parseProgram fuel { p with implicitTexts := ts } = parseProgram fuel p) ∧
    (∀ (fuel : Nat) (p : Parser) (prog : Program) (q : Parser),
      parseProgram fuel p = some (some prog, q) →
      prog.texts = buildImplicitTexts q.implicitTexts ∧
      ∀ (i : Nat) (h : i < prog.texts.length),
        (prog.texts.get ⟨i, h⟩).name = getImplicitTextLabel i) := by
  constructor
  · intro fuel p ts
    rfl
  · intro fuel p prog q h
    have ht := parseProgramLoop_texts fuel [] _ prog q h
    refine ⟨ht, ?_⟩
    intro i hi
    rw [List.get_of_eq ht]
    exact buildImplicitTexts_get_name q.implicitTexts i _

/-- C9, witness: instantiated at the empty program. -/
theorem c9_parse_program_resets_texts_witness :
    (Program.mk [] []).texts = buildImplicitTexts (Parser.new []).implicitTexts :=
  (c9_parse_program_resets_texts.2 1 (Parser.new []) (Program.mk [] []) (Parser.new []) rfl).1

/-- C4, counterexample.  The claim says the parser accepts a boolean
combination of operator-expressions joined by AND/OR inside an if condition.
On `if (flag(A) == TRUE && flag(B) == TRUE) { }` the parser instead fails:
after the first operator-expression it requires `)` and, finding `&&`,
records an error and returns nil.  (No Binary node exists anywhere in the
parser's output: see the Statement and ConditionExpression shapes.) -/
theorem c4_and_combination_rejected :
    (parseIfStatement 30 (Parser.new tsAndCond)).map (fun r => (r.1.isNone, r.2.errors)) =
      some (true, [peekErrorMsg TokenType.RPAREN TokenType.AND]) := rfl

/-- C4, amended.  After the opening `(` of an if or elif the parser accepts
exactly one flag(...) or var(...) operator-expression followed by `{`:
every accepted condition expression has kind var or flag (first conjunct), a
token other than `var`/`flag` after `(` is rejected immediately with an
error and a nil result (second conjunct), and a single well-formed var
operator-expression is accepted (third conjunct).  AND/OR combinations are
not supported. -/
theorem c4_single_operator_condition :
    (∀ (fuel lineNumber : Nat) (p : Parser) (e : ConditionExpression) (q : Parser),
      parseIfConditionExpression fuel lineNumber p = some (some e, q) →
      e.condType = TokenType.VAR ∨ e.condType = TokenType.FLAG) ∧
    (∀ (fuel lineNumber : Nat) (p : Parser),
      ¬ (p.peekToken.type = TokenType.VAR) →
      ¬ (p.peekToken.type = TokenType.FLAG) →
      parseIfConditionExpression (fuel+1) lineNumber p =
        some (none, { p with errors := p.errors ++
          [invalidIfCommandMsg lineNumber p.peekToken.literal] })) ∧
    (parseIfStatement 30 (Parser.new tsVarOk)).map (fun r => (r.1.isSome, r.2.errors)) =
      some (true, []) := by
  refine ⟨?_, ?_, rfl⟩
  · intro fuel ln p e q h
    exact (parseIfConditionExpression_some_inv fuel ln p e q h).1
  · intro fuel ln p h1 h2
    rw [parseIfConditionExpression]
    split
    · rfl
    · rename_i hcond
      exact absurd ⟨by simp [Parser.peekTokenIs, h1], by simp [Parser.peekTokenIs, h2]⟩ hcond

/-- C4, witness for the amended theorem at a concrete non-var, non-flag
condition token. -/
theorem c4_single_operator_condition_witness :
    parseIfConditionExpression 1 7 pAtComma =
      some (none, { pAtComma with errors := pAtComma.errors ++
        ["line 7: invalid if statement command ''"] }) :=
  c4_single_operator_condition.2.1 0 7 pAtComma (by decide) (by decide)

/-- C6.  `var` condition operator parsing succeeds only on one of the six
relational operators, which is stored in the expression (first conjunct);
any other token yields the invalid-operator error and failure (second
conjunct).  `flag` parsing succeeds only on `==` with comparison value TRUE
or FALSE (third conjunct); a non-`==` operator errors naming `==` (fourth
conjunct) and a non-boolean comparison token errors naming TRUE and FALSE
(fifth conjunct).  At the condition level, any accepted expression obeys
these operator constraints (sixth conjunct); failures propagate as a nil
condition result via parseIfConditionExpression. -/
theorem c6_condition_operator_validation :
    (∀ (fuel : Nat) (e : ConditionExpression) (p : Parser)
      (e' : ConditionExpression) (q : Parser),
      parseIfVarOperator fuel e p = some ((true, e'), q) →
      (p.curToken.type = TokenType.GT ∨ p.curToken.type = TokenType.GTE ∨
       p.curToken.type = TokenType.LT ∨ p.curToken.type = TokenType.LTE ∨
       p.curToken.type = TokenType.EQ ∨ p.curToken.type = TokenType.NEQ) ∧
      e'.operator = p.curToken.type) ∧
    (∀ (fuel : Nat) (e : ConditionExpression) (p : Parser),
      p.curToken.type ≠ TokenType.GT → p.curToken.type ≠ TokenType.GTE →
      p.curToken.type ≠ TokenType.LT → p.curToken.type ≠ TokenType.LTE →
      p.curToken.type ≠ TokenType.EQ → p.curToken.type ≠ TokenType.NEQ →
      parseIfVarOperator (fuel+1) e p =
        some ((false, e), { p with errors := p.errors ++
          [invalidCondOperatorMsg p.curToken.lineNumber p.curToken.literal] })) ∧
    (∀ (e : ConditionExpression) (p : Parser) (e' : ConditionExpression) (q : Parser),
      parseIfFlagOperator e p = ((true, e'), q) →
      p.curToken.type = TokenType.EQ ∧ e'.operator = TokenType.EQ ∧
      (e'.comparisonValue = "TRUE" ∨ e'.comparisonValue = "FALSE")) ∧
    (∀ (e : ConditionExpression) (p : Parser),
      p.curToken.type ≠ TokenType.EQ →
      parseIfFlagOperator e p =
        ((false, e), { p with errors := p.errors ++
          [invalidFlagOperatorMsg p.curToken.lineNumber p.curToken.literal] })) ∧
    (∀ (e : ConditionExpression) (p : Parser),
      p.curToken.type = TokenType.EQ →
      p.nextToken.curToken.type ≠ TokenType.RPAREN →
      p.nextToken.curToken.type ≠ TokenType.TRUE →
      p.nextToken.curToken.type ≠ TokenType.FALSE →
      parseIfFlagOperator e p =
        ((false, e.withOperator TokenType.EQ), { p.nextToken with
          errors := p.nextToken.errors ++
            [invalidFlagValueMsg p.nextToken.curToken.lineNumber p.nextToken.curToken.literal] })) ∧
    (∀ (fuel lineNumber : Nat) (p : Parser) (e : ConditionExpression) (q : Parser),
      parseIfConditionExpression fuel lineNumber p = some (some e, q) →
      (e.condType = TokenType.VAR →
        (e.operator = TokenType.GT ∨ e.operator = TokenType.GTE ∨
         e.operator = TokenType.LT ∨ e.operator = TokenType.LTE ∨
         e.operator = TokenType.EQ ∨ e.operator = TokenType.NEQ)) ∧
      (e.condType = TokenType.FLAG →
        e.operator = TokenType.EQ ∧
        (e.comparisonValue = "TRUE" ∨ e.comparisonValue = "FALSE"))) := by
  refine ⟨?_, ?_, ?_, ?_, ?_, ?_⟩
  · intro fuel e p e' q h
    obtain ⟨hsix, hop, _⟩ := parseIfVarOperator_true_inv fuel e p e' q h
    exact ⟨hsix, hop⟩
  · intro fuel e p h1 h2 h3 h4 h5 h6
    rw [parseIfVarOperator, if_pos ⟨h1, h2, h3, h4, h5, h6⟩]
    rfl
  · intro e p e' q h
    obtain ⟨heq, hop, hval, _⟩ := parseIfFlagOperator_true_inv e p e' q h
    exact ⟨heq, hop, hval⟩
  · intro e p h
    rw [parseIfFlagOperator, if_pos h]
    rfl
  · intro e p h h2 h3 h4
    rw [parseIfFlagOperator, h, if_neg (by simp), if_neg h2, if_pos ⟨h3, h4⟩]
    rfl
  · intro fuel ln p e q h
    exact (parseIfConditionExpression_some_inv fuel ln p e q h).2

/-- C6, witness: the flag operator parser at a concrete non-`==` token. -/
theorem c6_condition_operator_validation_witness :
    parseIfFlagOperator varCondExpr pAtComma =
      ((false, varCondExpr), { pAtComma with errors := pAtComma.errors ++
        ["line 3: invalid condition operator ','. Only '==' is allowed."] }) :=
  c6_condition_operator_validation.2.2.2.1 varCondExpr pAtComma (by decide)

/-- C7, counterexample.  On `script s {` (brace on line 1) with end of input
on line 2, the missing-brace error says `line 2`: the line of the EOF token
(which is what parseBlockStatement recorded as the block's token, the parse
of the block having begun at EOF), not the line of the `{` that opened the
block.  So the message does not carry the opening token's line, and here it
carries exactly the end-of-input token's line. -/
theorem c7_block_eof_line_counterexample :
    (parseProgram 30 (Parser.new tsBlockEof)).map (fun r => (r.1.isNone, r.2.errors)) =
      some (true, ["line 2: missing closing curly brace for block statement"]) ∧
    (tsBlockEof.getD 2 eofToken).type = TokenType.LBRACE ∧
    (tsBlockEof.getD 2 eofToken).lineNumber = 1 ∧
    (tsBlockEof.getD 3 eofToken).type = TokenType.EOF ∧
    (tsBlockEof.getD 3 eofToken).lineNumber = 2 :=
  ⟨rfl, rfl, rfl, rfl, rfl⟩

/-- C7, amended.  When end of input is reached inside a command's argument
list, the error carries the line of the command's name token (first
conjunct).  When end of input is reached inside a block, the error carries
the line of the block's recorded token (second conjunct), which is the token
the block's parse began at — the first token after `{`, not the `{` itself
(third conjunct); when the block is empty at EOF that token is the EOF token
itself, so the reported line can coincide with end-of-input's line. -/
theorem c7_unterminated_error_lines :
    (∀ (fuel : Nat) (tok : Token) (name : Identifier) (args argParts : List String)
      (numOpenParens : Int) (p : Parser),
      p.curToken.type = TokenType.EOF →
      commandArgsLoop (fuel+1) tok name args argParts numOpenParens p =
        some (none, { p with errors := p.errors ++
          [missingCmdParenMsg tok.lineNumber name.token.literal] })) ∧
    (∀ (fuel : Nat) (blockTok : Token) (stmts : List Statement) (p : Parser),
      p.curToken.type = TokenType.EOF →
      parseBlockLoop (fuel+1) blockTok stmts p =
        some (none, { p with errors := p.errors ++
          [missingBlockBraceMsg blockTok.lineNumber] })) ∧
    (∀ (fuel : Nat) (p : Parser),
      parseBlockStatement (fuel+1) p = parseBlockLoop fuel p.curToken [] p) := by
  refine ⟨?_, ?_, fun fuel p => rfl⟩
  · intro fuel tok name args argParts n p h
    rw [commandArgsLoop, if_neg (by simp [h]), if_pos h]
    rfl
  · intro fuel blockTok stmts p h
    rw [parseBlockLoop, if_neg (by simp [h]), if_pos h]
    rfl

/-- C7, witness for the amended theorem at a concrete EOF state. -/
theorem c7_unterminated_error_lines_witness :
    parseBlockLoop 1 (tk .IDENT "b" 9) [] pAtEof =
      some (none, { pAtEof with errors := pAtEof.errors ++
        ["line 9: missing closing curly brace for block statement"] }) :=
  c7_unterminated_error_lines.2.1 0 (tk .IDENT "b" 9) [] pAtEof rfl

/-- C8, counterexample.  On `script {` the missing script name triggers
peekError, whose message — the only diagnostic of the run — is
`expected next token to be type IDENT, got \x7b instead`: it does not start
with a line prefix and contains no digit at all, so it carries no line
number.  Not every diagnostic the caller receives is a line-numbered
string. -/
theorem c8_peek_error_not_line_numbered :
    (parseProgram 30 (Parser.new tsPeekErrTop)).map (fun r => (r.1.isNone, r.2.errors)) =
      some (true, [peekErrorMsg TokenType.IDENT TokenType.LBRACE]) ∧
    peekErrorMsg TokenType.IDENT TokenType.LBRACE =
      "expected next token to be type IDENT, got \x7b instead" ∧
    "line ".data.isPrefixOf (peekErrorMsg TokenType.IDENT TokenType.LBRACE).data = false ∧
    (peekErrorMsg TokenType.IDENT TokenType.LBRACE).data.all (fun c => !c.isDigit) = true :=
  ⟨rfl, rfl, by decide, by decide⟩

/-- C8, amended.  peekError appends a message that is a function of the
expected and actual token types only — no line number flows into it (first
conjunct) — and no peekError message starts with the `line ` prefix carried
by every other parser diagnostic (second conjunct).  Errors recorded at the
other violation sites do embed the originating token's line number, e.g. the
top-level-statement error (third conjunct). -/
theorem c8_error_line_numbers :
    (∀ (p : Parser) (t : TokenType),
      p.peekError t = { p with errors := p.errors ++ [peekErrorMsg t p.peekToken.type] }) ∧
    (∀ (a b : TokenType), "line ".data.isPrefixOf (peekErrorMsg a b).data = false) ∧
    (∀ (fuel : Nat) (p : Parser),
      ¬ (p.curToken.type = TokenType.SCRIPT) →
      ¬ (p.curToken.type = TokenType.RAW) →
      ¬ (p.curToken.type = TokenType.RAWGLOBAL) →
      parseTopLevelStatement (fuel+1) p =
        some (none, { p with errors := p.errors ++
          [topLevelErrMsg p.curToken.lineNumber p.curToken.literal] })) := by
  refine ⟨fun p t => rfl, by decide, ?_⟩
  intro fuel p h1 h2 h3
  rw [parseTopLevelStatement, if_neg h1, if_neg (by simp [h2, h3])]
  rfl

/-- C8, witness for the amended theorem at a concrete invalid top-level
token. -/
theorem c8_error_line_numbers_witness :
    parseTopLevelStatement 1 pAtComma =
      some (none, { pAtComma with errors := pAtComma.errors ++
        ["line 3: could not parse top-level statement for ','"] }) :=
  c8_error_line_numbers.2.2 0 pAtComma (by decide) (by decide) (by decide)

end Poryscript
